import Mathlib

/-!
Verification development for the Overton IRT MCMC notebook
(src/overton_irt_mcmc.py).

The notebook flattens a wide respondent-by-question matrix of binary
answers (with missing cells) into a long observation table, encodes the
categorical columns (question, respondent id, year) as dense integer
codes via sorted distinct categories, and conditions four item-response
models (m1 to m4) on the resulting table.  It then runs
posterior-predictive simulations: resample mode (pp1, pp2, pp3, pp4:
response sums per existing respondent) and forecast mode (pp32, pp42:
a probability grid over years and questions for a fresh respondent).

This file gives a shallow embedding of that pipeline.  Identifiers
(respondent ids, question column indices, calendar years) are natural
numbers; parameter values are rationals; dense codes are integers with
-1 as the missing sentinel, exactly as pandas Categorical produces.
-/

namespace Overton

/-! ### Wide and long tables -/

/-- One row of the wide matrix: a respondent id, the year of the survey
row, and one optional boolean answer per question column (none encodes
a missing cell, as NaN does in the notebook). -/
structure WideRow where
  id : ℕ
  year : ℕ
  answers : List (Option Bool)
deriving DecidableEq

/-- The wide matrix together with its number of question columns
(the notebook has 15 question columns before the year and id columns). -/
structure WideTable where
  nq : ℕ
  rows : List WideRow
deriving DecidableEq

/-- A row of the melted table before the year join: id, question column
index and the observed answer.  Missing cells produce no row, mirroring
pd.melt followed by dropna. -/
structure LongRow where
  id : ℕ
  question : ℕ
  answer : Bool
deriving DecidableEq

/-- A row of the final observation table after joining the year column
back on the respondent id. -/
structure Obs where
  id : ℕ
  question : ℕ
  answer : Bool
  year : ℕ
deriving DecidableEq

/-- The contribution of one wide row to the melted table at question
column j: a row when the cell is observed, nothing when it is missing.
Cells beyond the end of the answers list count as missing. -/
def meltCell (j : ℕ) (w : WideRow) : Option LongRow :=
  (w.answers.getD j none).map (fun a => LongRow.mk w.id j a)

/-- pd.melt with id_vars id and value_vars the question columns,
followed by dropna: question-major enumeration of the observed cells. -/
def melt (t : WideTable) : List LongRow :=
  (List.range t.nq).flatMap (fun j => t.rows.filterMap (meltCell j))

/-- sort_values by id.  The later claims are insensitive to row order;
insertion sort realizes one admissible order. -/
def sortById (l : List LongRow) : List LongRow :=
  List.insertionSort (fun a b => a.id ≤ b.id) l

/-- join of the year column on the respondent id (the wide index is
unique in the notebook, so the first matching row is the match). -/
def joinYear (t : WideTable) (l : List LongRow) : List Obs :=
  l.filterMap (fun r =>
    (t.rows.find? (fun w => w.id == r.id)).map
      (fun w => Obs.mk r.id r.question r.answer w.year))

/-- The observation table long_q of the notebook: melt, dropna,
sort by id, then join the year column. -/
def long_q (t : WideTable) : List Obs :=
  joinYear t (sortById (melt t))

/-! ### Categorical encoder -/

/-- Categories of a pd.Categorical over integer data: the distinct
values in increasing order. -/
def categories (xs : List ℕ) : List ℕ :=
  List.insertionSort (· ≤ ·) xs.dedup

/-- The dense code of one value: its index among the categories, with
-1 as the sentinel for a value outside the category set (pandas uses -1
for missing entries). -/
def code (cats : List ℕ) (x : ℕ) : ℤ :=
  if x ∈ cats then (List.indexOf x cats : ℤ) else -1

/-- Error raised when a code outside the valid range is decoded. -/
inductive EncodingError where
  | unknownCode (c : ℤ)
deriving DecidableEq

/-- Modelled from the spec: the decode direction of the Categorical
Encoder (code to original identifier) is described in section 4.1 of
the spec but the notebook only ever uses the pandas encode direction,
so the decoder is written from the spec contract: return the category
at the code when the code is inside the valid range, fail with
EncodingError otherwise. -/
def decode (cats : List ℕ) (c : ℤ) : Except EncodingError ℕ :=
  if h : 0 ≤ c ∧ c.toNat < cats.length then
    Except.ok (cats.get ⟨c.toNat, h.2⟩)
  else
    Except.error (EncodingError.unknownCode c)

/-! ### Dense codes of the pipeline columns -/

/-- q_cat categories: distinct question identifiers of the long table. -/
def qCats (t : WideTable) : List ℕ :=
  categories ((long_q t).map (fun o => o.question))

/-- id_cat categories: distinct respondent ids of the long table. -/
def rCats (t : WideTable) : List ℕ :=
  categories ((long_q t).map (fun o => o.id))

/-- q_year_cat categories: distinct years of the long table. -/
def yCats (t : WideTable) : List ℕ :=
  categories ((long_q t).map (fun o => o.year))

/-- q_cat code of one observation. -/
def qCode (t : WideTable) (o : Obs) : ℤ := code (qCats t) o.question

/-- id_cat code of one observation. -/
def rCode (t : WideTable) (o : Obs) : ℤ := code (rCats t) o.id

/-- q_year_cat code of one observation. -/
def yCode (t : WideTable) (o : Obs) : ℤ := code (yCats t) o.year

/-- q_cat code as an index (observations of the table always have a
nonnegative code). -/
def qCodeN (t : WideTable) (o : Obs) : ℕ := (qCode t o).toNat

/-- id_cat code as an index. -/
def rCodeN (t : WideTable) (o : Obs) : ℕ := (rCode t o).toNat

/-! ### The id_year categorical of the polarization model

The notebook builds id_year_cat from long_q.groupby(id).year.first():
the groupby keys are the distinct respondent ids in increasing order
(the respondent categories), and the first year of each group. -/

/-- Year of the first observation of a given respondent id in the long
table (0 when the id has no observation; every encoded id has one). -/
def firstObsYear (t : WideTable) (i : ℕ) : ℕ :=
  (((long_q t).find? (fun o => o.id == i)).map (fun o => o.year)).getD 0

/-- The values of long_q.groupby(id).year.first(), ordered by the
sorted distinct respondent ids. -/
def idYearList (t : WideTable) : List ℕ :=
  (rCats t).map (firstObsYear t)

/-- id_year_cat categories. -/
def idYearCats (t : WideTable) : List ℕ :=
  categories (idYearList t)

/-- id_year_cat code of the respondent with dense code r. -/
def idYearCode (t : WideTable) (r : ℕ) : ℤ :=
  code (idYearCats t) ((idYearList t).getD r 0)

/-! ### Model family -/

/-- A binding of the latent parameters shared by the four models:
question difficulties d by question code, respondent efficacies e by
respondent code, and the scalar conservatism_year_effect. -/
structure Params where
  d : ℕ → ℚ
  e : ℕ → ℚ
  cye : ℚ

/-- Prior declarations as they appear in the model blocks.  A
normalExpScale mu logSigma is a normal whose scale is the exponential
of logSigma (the heteroscedastic prior of m4, where the scale is
written exp(polarization_year_zero + polarization_year_effect * code)). -/
inductive Prior where
  | normal (mu sigma : ℚ)
  | halfNormal (sigma : ℚ)
  | normalExpScale (mu logSigma : ℚ)
deriving DecidableEq

/-- The likelihood of all four models: independent Bernoulli draws with
the given per-observation logits, conditioned on the observed answers. -/
inductive Likelihood where
  | bernoulliLogit (logits : List ℚ) (observed : List Bool)
deriving DecidableEq

/-- Observed answers column of the long table. -/
def answersVec (t : WideTable) : List Bool :=
  (long_q t).map (fun o => o.answer)

/-- m1 difficulty prior: d with mu 0 and sigma 1 per question. -/
def m1_dPrior : Prior := Prior.normal 0 1

/-- m1 efficacy prior: e with mu 0 and sigma 4 per respondent. -/
def m1_ePrior : Prior := Prior.normal 0 4

/-- m1 linear predictor of one observation:
e at the respondent code minus d at the question code. -/
def m1_logitRow (t : WideTable) (p : Params) (o : Obs) : ℚ :=
  p.e (rCodeN t o) - p.d (qCodeN t o)

/-- m1 logit vector over the long table. -/
def m1_logitVec (t : WideTable) (p : Params) : List ℚ :=
  (long_q t).map (m1_logitRow t p)

/-- m1 likelihood: Bernoulli with the m1 logits, observed answers. -/
def m1_likelihood (t : WideTable) (p : Params) : Likelihood :=
  Likelihood.bernoulliLogit (m1_logitVec t p) (answersVec t)

/-- m2 hierarchical scale prior: e_std half-normal with sigma 4. -/
def m2_eStdPrior : Prior := Prior.halfNormal 4

/-- m2 linear predictor, identical in form to m1. -/
def m2_logitRow (t : WideTable) (p : Params) (o : Obs) : ℚ :=
  p.e (rCodeN t o) - p.d (qCodeN t o)

/-- m3 trend prior: conservatism_year_effect normal mu 0 sigma 1. -/
def m3_cyePrior : Prior := Prior.normal 0 1

/-- m3 linear predictor of one observation: e at the respondent code,
plus conservatism_year_effect times the q_year_cat code of the
observation, minus d at the question code. -/
def m3_logitRow (t : WideTable) (p : Params) (o : Obs) : ℚ :=
  p.e (rCodeN t o) + p.cye * (yCode t o : ℚ) - p.d (qCodeN t o)

/-- m3 logit vector over the long table. -/
def m3_logitVec (t : WideTable) (p : Params) : List ℚ :=
  (long_q t).map (m3_logitRow t p)

/-- m4 log-scale of the efficacy prior of the respondent with dense
code r: polarization_year_zero plus polarization_year_effect times the
id_year_cat code of that respondent. -/
def m4_logSigma (t : WideTable) (pzero peff : ℚ) (r : ℕ) : ℚ :=
  pzero + peff * (idYearCode t r : ℚ)

/-- m4 efficacy prior of the respondent with dense code r: normal with
mu 0 and scale exp(m4_logSigma). -/
def m4_ePrior (t : WideTable) (pzero peff : ℚ) (r : ℕ) : Prior :=
  Prior.normalExpScale 0 (m4_logSigma t pzero peff r)

/-- m4 linear predictor, identical in form to m3 (the calendar drift
term is retained). -/
def m4_logitRow (t : WideTable) (p : Params) (o : Obs) : ℚ :=
  p.e (rCodeN t o) + p.cye * (yCode t o : ℚ) - p.d (qCodeN t o)

/-- m4 logit vector over the long table. -/
def m4_logitVec (t : WideTable) (p : Params) : List ℚ :=
  (long_q t).map (m4_logitRow t p)

/-- Increase the difficulty of the single question with code q0 by δ,
holding every other parameter fixed. -/
def updateD (p : Params) (q0 : ℕ) (δ : ℚ) : Params :=
  Params.mk (fun q => if q = q0 then p.d q + δ else p.d q) p.e p.cye

/-! ### Forecast mode (new respondent): pp32 and pp42

pp32 (after m3) declares e_new as a scalar normal with the posterior
e_std: one fresh efficacy per posterior draw, entering every year of
the grid.  pp42 (after m4) declares e_new with dims ("year",): one
fresh efficacy per year per posterior draw.  The dims tuples below are
transcribed from the pm.Normal declarations. -/

/-- Dims of the e_new declaration in pp32: none, a scalar. -/
def pp32_eNewDims : List String := []

/-- Dims of the e_new declaration in pp42: one axis, the year grid. -/
def pp42_eNewDims : List String := ["year"]

/-- The property that a forecast simulator draws one fresh e_new per
year of the grid (per posterior draw): its e_new axis is the year axis. -/
def eNewPerYear (dims : List String) : Prop := dims = ["year"]

/-- pp32 logit grid entry at year index y and question code q, for one
posterior draw with trend cye and difficulties d, and the single fresh
efficacy eNew of that draw. -/
def pp32_logit (eNew cye : ℚ) (d : ℕ → ℚ) (y q : ℕ) : ℚ :=
  eNew + cye * (y : ℚ) - d q

/-- pp42 logit grid entry: the fresh efficacy is indexed by the year. -/
def pp42_logit (eNew : ℕ → ℚ) (cye : ℚ) (d : ℕ → ℚ) (y q : ℕ) : ℚ :=
  eNew y + cye * (y : ℚ) - d q

/-- Log-scale of the e_new prior in pp42 at year index y:
polarization_year_zero plus polarization_year_effect times y. -/
def pp42_eNewLogSigma (pzero peff : ℚ) (y : ℕ) : ℚ :=
  pzero + peff * (y : ℚ)

/-- The inverse logit. -/
noncomputable def invlogit (x : ℝ) : ℝ :=
  1 / (1 + Real.exp (-x))

/-- pp32 probability grid entry: invlogit of the pp32 logit. -/
noncomputable def pp32_p (eNew cye : ℚ) (d : ℕ → ℚ) (y q : ℕ) : ℝ :=
  invlogit ((pp32_logit eNew cye d y q : ℚ) : ℝ)

/-- pp42 probability grid entry: invlogit of the pp42 logit. -/
noncomputable def pp42_p (eNew : ℕ → ℚ) (cye : ℚ) (d : ℕ → ℚ) (y q : ℕ) : ℝ :=
  invlogit ((pp42_logit eNew cye d y q : ℚ) : ℝ)

/-! ### Indexing semantics of the array library

The models are conditioned by fancy-indexing the parameter vectors
with the dense code arrays (d at the question codes, e at the
respondent codes).  The array library indexes as numpy does: an index
in [0, n) selects directly, an index in [-n, 0) silently wraps to
index from the end, and anything else raises an index error (modelled
as none).  No ModelSpecError type exists anywhere in the notebook. -/

/-- numpy indexing of a vector by a possibly negative integer. -/
def npIndex (xs : List ℚ) (i : ℤ) : Option ℚ :=
  let j : ℤ := if i < 0 then i + (xs.length : ℤ) else i
  if h : 0 ≤ j ∧ j.toNat < xs.length then some (xs.get ⟨j.toNat, h.2⟩)
  else none

/-- The codes an n-element coordinate axis declares: 0 to n - 1.
Everything else is outside the declared coordinate set. -/
def outOfRange (n : ℕ) (i : ℤ) : Prop := i < 0 ∨ (n : ℤ) ≤ i

/-- The indices at which numpy indexing of an n-element vector raises
an index error: below -n or at n and beyond.  Note the gap to
outOfRange: indices in [-n, 0) are outside the declared coordinate set
but do not fail, they silently wrap. -/
def npFails (n : ℕ) (i : ℤ) : Prop := i < -(n : ℤ) ∨ (n : ℤ) ≤ i

/-- m1 logit of one observation, evaluated with the indexing semantics
of the array library on explicit parameter vectors and integer codes. -/
def m1_logit_np (d e : List ℚ) (rc qc : ℤ) : Option ℚ :=
  match npIndex e rc, npIndex d qc with
  | some ev, some dv => some (ev - dv)
  | _, _ => none

/-- m2 logit with array-library indexing (same form as m1). -/
def m2_logit_np (d e : List ℚ) (rc qc : ℤ) : Option ℚ :=
  match npIndex e rc, npIndex d qc with
  | some ev, some dv => some (ev - dv)
  | _, _ => none

/-- m3 logit with array-library indexing: the year code enters as a
numeric factor, not as an index. -/
def m3_logit_np (d e : List ℚ) (cye : ℚ) (rc qc yc : ℤ) : Option ℚ :=
  match npIndex e rc, npIndex d qc with
  | some ev, some dv => some (ev + cye * (yc : ℚ) - dv)
  | _, _ => none

/-- m4 logit with array-library indexing (same form as m3). -/
def m4_logit_np (d e : List ℚ) (cye : ℚ) (rc qc yc : ℤ) : Option ℚ :=
  match npIndex e rc, npIndex d qc with
  | some ev, some dv => some (ev + cye * (yc : ℚ) - dv)
  | _, _ => none

/-! ### Resample mode: pp1 to pp4

sample_posterior_predictive takes every variable whose name appears in
the posterior from the trace and forward-samples only the rest; the
declared prior of a trace-present variable is never read (the pp4
block says so explicitly: the e declaration will be taken from the
trace).  The simulator below makes that binding rule explicit.  The
seeded randomness is passed in as explicit streams: standard-normal
draws zd, ze, zc for any parameter that is absent from the posterior,
and a logit-space uniform stream g for the Bernoulli responses. -/

/-- The prior scales a resample-mode model block declares for d, e and
conservatism_year_effect. -/
structure DeclSigmas where
  dSigma : ℚ
  eSigma : ℚ
  cyeSigma : ℚ
deriving DecidableEq

/-- One posterior draw, as a partial binding: a parameter is present
exactly when its name appears in the Posterior Sample Set. -/
structure PosteriorDraw where
  d : Option (List ℚ)
  e : Option (List ℚ)
  cye : Option ℚ

/-- Bind a vector parameter: from the posterior draw when present,
otherwise freshly drawn from the declared normal prior (scale times a
standard-normal stream). -/
def bindVec (post : Option (List ℚ)) (sigma : ℚ) (z : ℕ → ℚ) : ℕ → ℚ :=
  match post with
  | some v => fun i => v.getD i 0
  | none => fun i => sigma * z i

/-- Bind a scalar parameter the same way. -/
def bindScalar (post : Option ℚ) (sigma : ℚ) (z : ℚ) : ℚ :=
  match post with
  | some v => v
  | none => sigma * z

/-- Resample-mode logit of respondent r at question q: the outer
difference of the bound efficacies (plus the trend term times the
per-respondent year code, when the block declares the trend, as pp3
and pp4 do) and the bound difficulties. -/
def simLogit (trendOn : Bool) (yearCodes : List ℤ) (decl : DeclSigmas)
    (post : PosteriorDraw) (zd ze : ℕ → ℚ) (zc : ℚ) (r q : ℕ) : ℚ :=
  bindVec post.e decl.eSigma ze r
    + (if trendOn then
        bindScalar post.cye decl.cyeSigma zc * (yearCodes.getD r 0 : ℚ)
      else 0)
    - bindVec post.d decl.dSigma zd q

/-- Resample-mode response_sum for one posterior draw: for each of the
nR respondents, the number of the nQ questions whose seeded Bernoulli
response comes out 1. -/
def simResponseSum (trendOn : Bool) (yearCodes : List ℤ) (nR nQ : ℕ)
    (decl : DeclSigmas) (post : PosteriorDraw) (zd ze : ℕ → ℚ) (zc : ℚ)
    (g : ℕ → ℕ → ℚ) : List ℕ :=
  (List.range nR).map (fun r =>
    ((List.range nQ).filter (fun q =>
      decide (g r q < simLogit trendOn yearCodes decl post zd ze zc r q))).length)

/-- The e prior scale the pp2 block declares (sigma 4, the m1 prior). -/
def pp2_eSigmaDecl : ℚ := 4

/-- The e prior scale the pp4 block declares (sigma 1, with the
comment that it will be taken from the trace). -/
def pp4_eSigmaDecl : ℚ := 1

/-! ### Concrete fixtures used by the witnesses -/

/-- A small wide table: two question columns; respondent 5 (year 1975)
answers only question 0, respondent 3 (year 1973) answers both, and
respondent 9 (year 1973) answers nothing. -/
def tinyTable : WideTable :=
  WideTable.mk 2
    [WideRow.mk 5 1975 [some true, none],
     WideRow.mk 3 1973 [some false, some true],
     WideRow.mk 9 1973 [none, none]]

/-- A concrete parameter binding for the fixture table. -/
def tinyParams : Params :=
  Params.mk (fun q => (q : ℚ) + 1) (fun r => 2 * (r : ℚ) + 1) 3

/-! ## Helper lemmas -/

theorem invlogit_pos (x : ℝ) : 0 < invlogit x := by
  unfold invlogit
  positivity

theorem invlogit_lt_one (x : ℝ) : invlogit x < 1 := by
  unfold invlogit
  rw [div_lt_one (by positivity)]
  linarith [Real.exp_pos (-x)]

theorem invlogit_zero : invlogit 0 = 1 / 2 := by
  unfold invlogit
  rw [neg_zero, Real.exp_zero]
  norm_num

theorem npIndex_eq_none (xs : List ℚ) (i : ℤ) :
    npIndex xs i = none ↔ npFails xs.length i := by
  unfold npIndex npFails
  by_cases h : i < 0 <;> simp only [h, if_pos, if_neg, ite_true, ite_false] <;>
    split_ifs with h2 <;> simp <;> omega

theorem pairMatch_eq_none (a b : Option ℚ) (f : ℚ → ℚ → ℚ) :
    (match a, b with
      | some x, some y => some (f x y)
      | _, _ => none) = none ↔ a = none ∨ b = none := by
  rcases a with _ | x <;> rcases b with _ | y <;> simp

theorem mem_categories {xs : List ℕ} {a : ℕ} : a ∈ categories xs ↔ a ∈ xs := by
  unfold categories
  rw [(List.perm_insertionSort _ _).mem_iff, List.mem_dedup]

theorem nodup_categories (xs : List ℕ) : (categories xs).Nodup :=
  (List.perm_insertionSort _ _).nodup_iff.2 (List.nodup_dedup xs)

theorem sorted_categories (xs : List ℕ) :
    List.Sorted (· ≤ ·) (categories xs) :=
  List.sorted_insertionSort _ _

theorem categories_congr {xs ys : List ℕ} (h : ∀ a, a ∈ xs ↔ a ∈ ys) :
    categories xs = categories ys := by
  refine List.eq_of_perm_of_sorted ?_ (sorted_categories xs) (sorted_categories ys)
  refine List.perm_of_nodup_nodup_toFinset_eq (nodup_categories xs)
    (nodup_categories ys) ?_
  ext a
  simp only [List.mem_toFinset, mem_categories]
  exact h a

theorem year_of_long_q {t : WideTable} {o : Obs} (ho : o ∈ long_q t) :
    (t.rows.find? (fun w => w.id == o.id)).map (fun w => w.year) = some o.year := by
  unfold long_q joinYear at ho
  rw [List.mem_filterMap] at ho
  obtain ⟨r, _, hmap⟩ := ho
  cases hfind : t.rows.find? (fun w => w.id == r.id) with
  | none =>
    rw [hfind] at hmap
    simp at hmap
  | some w =>
    rw [hfind] at hmap
    simp only [Option.map_some'] at hmap
    obtain rfl := Option.some.inj hmap
    rw [hfind, Option.map_some']

theorem mem_rCats {t : WideTable} {i : ℕ} :
    i ∈ rCats t ↔ ∃ o ∈ long_q t, o.id = i := by
  unfold rCats
  rw [mem_categories, List.mem_map]

theorem firstObsYear_eq {t : WideTable} {o : Obs} (ho : o ∈ long_q t) :
    firstObsYear t o.id = o.year := by
  unfold firstObsYear
  have hsome : ((long_q t).find? (fun o2 => o2.id == o.id)).isSome :=
    List.find?_isSome.2 ⟨o, ho, by simp⟩
  obtain ⟨o2, ho2⟩ := Option.isSome_iff_exists.1 hsome
  rw [ho2, Option.map_some', Option.getD_some]
  have hid : o2.id = o.id := by
    simpa using List.find?_some ho2
  have h1 := year_of_long_q (List.mem_of_find?_eq_some ho2)
  rw [hid] at h1
  have h2 := year_of_long_q ho
  rw [h1] at h2
  exact Option.some.inj h2

theorem mem_idYearList_iff {t : WideTable} {a : ℕ} :
    a ∈ idYearList t ↔ a ∈ (long_q t).map (fun o => o.year) := by
  unfold idYearList
  rw [List.mem_map, List.mem_map]
  constructor
  · rintro ⟨i, hi, h⟩
    obtain ⟨o, ho, hoid⟩ := mem_rCats.1 hi
    refine ⟨o, ho, ?_⟩
    rw [← h, ← hoid, firstObsYear_eq ho]
  · rintro ⟨o, ho, h⟩
    exact ⟨o.id, mem_rCats.2 ⟨o, ho, rfl⟩, by rw [firstObsYear_eq ho, h]⟩

theorem idYearCats_eq_yCats (t : WideTable) : idYearCats t = yCats t := by
  unfold idYearCats yCats
  exact categories_congr fun a => mem_idYearList_iff

theorem melt_find_total (t : WideTable) :
    ∀ r ∈ melt t, (t.rows.find? (fun w => w.id == r.id)).isSome := by
  intro r hr
  unfold melt at hr
  rw [List.mem_flatMap] at hr
  obtain ⟨j, _, hr2⟩ := hr
  rw [List.mem_filterMap] at hr2
  obtain ⟨w, hw, hcell⟩ := hr2
  unfold meltCell at hcell
  cases hc : w.answers.getD j none with
  | none =>
    rw [hc] at hcell
    simp at hcell
  | some a =>
    rw [hc, Option.map_some'] at hcell
    obtain rfl := Option.some.inj hcell
    exact List.find?_isSome.2 ⟨w, hw, by simp⟩

theorem joinYear_countP (t : WideTable) (l : List LongRow) (x : ℕ)
    (htot : ∀ r ∈ l, (t.rows.find? (fun w => w.id == r.id)).isSome) :
    (joinYear t l).countP (fun o => o.id == x) = l.countP (fun r => r.id == x) := by
  unfold joinYear
  rw [List.countP_filterMap]
  refine List.countP_congr fun r hr => ?_
  obtain ⟨w, hw⟩ := Option.isSome_iff_exists.1 (htot r hr)
  rw [hw]
  simp

theorem long_q_countP (t : WideTable) (x : ℕ) :
    (long_q t).countP (fun o => o.id == x) = (melt t).countP (fun r => r.id == x) := by
  unfold long_q sortById
  rw [joinYear_countP]
  · exact (List.Perm.countP_eq _ (List.perm_insertionSort _ _))
  · intro r hr
    exact melt_find_total t r ((List.perm_insertionSort _ _).mem_iff.1 hr)

theorem countP_unique_id (rows : List WideRow) (w : WideRow) (hw : w ∈ rows)
    (hnd : (rows.map (fun x => x.id)).Nodup) (q : WideRow → Bool) :
    rows.countP (fun w2 => q w2 && (w2.id == w.id)) = if q w then 1 else 0 := by
  induction rows with
  | nil => cases hw
  | cons a l ih =>
    rw [List.map_cons, List.nodup_cons] at hnd
    rw [List.countP_cons]
    rcases List.mem_cons.1 hw with rfl | hw2
    · have hz : l.countP (fun w2 => q w2 && (w2.id == w.id)) = 0 := by
        rw [List.countP_eq_zero]
        intro b hb
        simp only [Bool.and_eq_true, beq_iff_eq, not_and]
        intro _ hbid
        exact absurd (hbid ▸ List.mem_map_of_mem (fun x => x.id) hb) hnd.1
      rw [hz]
      by_cases hq : q w <;> simp [hq]
    · have hne : ¬a.id = w.id := by
        intro hae
        exact absurd (hae ▸ List.mem_map_of_mem (fun x => x.id) hw2) hnd.1
      rw [ih hw2 hnd.2]
      simp [hne]

theorem melt_countP (t : WideTable) (w : WideRow) (hw : w ∈ t.rows)
    (hnd : (t.rows.map (fun x => x.id)).Nodup) :
    (melt t).countP (fun r => r.id == w.id) =
      ((List.range t.nq).map
        (fun j => if (w.answers.getD j none).isSome then 1 else 0)).sum := by
  unfold melt
  rw [List.countP_flatMap]
  congr 1
  refine List.map_congr_left fun j _ => ?_
  show (t.rows.filterMap (meltCell j)).countP (fun r => r.id == w.id)
    = if (w.answers.getD j none).isSome then 1 else 0
  rw [List.countP_filterMap]
  have hcong : ∀ w2 ∈ t.rows,
      ((Option.map (fun r => r.id == w.id) (meltCell j w2)).getD false) = true ↔
        ((w2.answers.getD j none).isSome && (w2.id == w.id)) = true := by
    intro w2 _
    unfold meltCell
    cases hc : w2.answers.getD j none <;> simp [hc]
  rw [List.countP_congr hcong]
  exact countP_unique_id t.rows w hw hnd (fun w2 => (w2.answers.getD j none).isSome)

theorem sum_range_presence (l : List (Option Bool)) :
    ((List.range l.length).map
      (fun j => if (l.getD j none).isSome then 1 else 0)).sum
      = l.countP Option.isSome := by
  induction l with
  | nil => rfl
  | cons a l ih =>
    rw [List.length_cons, List.range_succ_eq_map, List.map_cons, List.sum_cons,
      List.map_map]
    have hc : ((fun j => if ((a :: l).getD j none).isSome then (1 : ℕ) else 0)
        ∘ Nat.succ) = fun j => if (l.getD j none).isSome then 1 else 0 := by
      funext j
      rfl
    rw [hc, ih, List.countP_cons]
    show (if a.isSome then 1 else 0) + l.countP Option.isSome
      = l.countP Option.isSome + if Option.isSome a = true then 1 else 0
    rw [Nat.add_comm]

/-! ## Claims -/

/-- C1 counterexample: in pp32, the forecast mode run after fitting m3,
the fresh efficacy e_new is declared as a scalar, not with one
component per year of the target grid, so the claim that every
forecast-mode run draws one independent e_new per (draw, year)
combination fails on pp32. -/
theorem C1_counterexample : ¬ eNewPerYear pp32_eNewDims := by
  simp [eNewPerYear, pp32_eNewDims]

/-- C1 (amended): pp42 draws one fresh e_new per (draw, year), with the
grid entry at year y reading the year-y component; pp32 draws a single
scalar e_new per posterior draw, shared by every year of the grid (the
difference between two years of the same draw never involves e_new);
in both modes the probability grid is the inverse logit of the logit
grid. -/
theorem C1_forecast_eNew :
    eNewPerYear pp42_eNewDims ∧
    pp32_eNewDims = [] ∧
    (∀ (eNew cye : ℚ) (d : ℕ → ℚ) (y q : ℕ),
      pp32_p eNew cye d y q = invlogit ((pp32_logit eNew cye d y q : ℚ) : ℝ)) ∧
    (∀ (eNew cye : ℚ) (d : ℕ → ℚ) (y₁ y₂ q : ℕ),
      pp32_logit eNew cye d y₁ q - pp32_logit eNew cye d y₂ q
        = cye * ((y₁ : ℚ) - (y₂ : ℚ))) ∧
    (∀ (eNew : ℕ → ℚ) (cye : ℚ) (d : ℕ → ℚ) (y q : ℕ),
      pp42_p eNew cye d y q = invlogit ((pp42_logit eNew cye d y q : ℚ) : ℝ) ∧
      pp42_logit eNew cye d y q = eNew y + cye * (y : ℚ) - d q) := by
  refine ⟨rfl, rfl, fun _ _ _ _ _ => rfl, ?_, fun _ _ _ _ _ => ⟨rfl, rfl⟩⟩
  intro eNew cye d y₁ y₂ q
  unfold pp32_logit
  ring

/-- C5: for all four models, increasing the difficulty of the single
question with code q0 by δ decreases the logit of every observation of
that question by exactly δ, and leaves the logit of every observation
of any other question unchanged, holding all other parameters fixed. -/
theorem C5_difficulty_delta :
    ∀ (t : WideTable) (p : Params) (q0 : ℕ) (δ : ℚ) (o : Obs),
      (qCodeN t o = q0 →
        m1_logitRow t (updateD p q0 δ) o = m1_logitRow t p o - δ ∧
        m2_logitRow t (updateD p q0 δ) o = m2_logitRow t p o - δ ∧
        m3_logitRow t (updateD p q0 δ) o = m3_logitRow t p o - δ ∧
        m4_logitRow t (updateD p q0 δ) o = m4_logitRow t p o - δ) ∧
      (qCodeN t o ≠ q0 →
        m1_logitRow t (updateD p q0 δ) o = m1_logitRow t p o ∧
        m2_logitRow t (updateD p q0 δ) o = m2_logitRow t p o ∧
        m3_logitRow t (updateD p q0 δ) o = m3_logitRow t p o ∧
        m4_logitRow t (updateD p q0 δ) o = m4_logitRow t p o) := by
  intro t p q0 δ o
  constructor
  · intro h
    subst h
    refine ⟨?_, ?_, ?_, ?_⟩ <;>
      · simp only [m1_logitRow, m2_logitRow, m3_logitRow, m4_logitRow, updateD]
        rw [if_true]
        ring
  · intro h
    refine ⟨?_, ?_, ?_, ?_⟩ <;>
      · simp only [m1_logitRow, m2_logitRow, m3_logitRow, m4_logitRow, updateD]
        rw [if_neg h]

/-- C5 witness: at the fixture table, the observation of respondent 3
on question 0 has question code 0; raising the difficulty of question
code 0 by 2 lowers its logit by exactly 2 in all four models, and
raising the difficulty of question code 1 leaves it unchanged. -/
theorem C5_witness :
    (qCodeN tinyTable (Obs.mk 3 0 false 1973) = 0 ∧
      (m1_logitRow tinyTable (updateD tinyParams 0 2) (Obs.mk 3 0 false 1973)
          = m1_logitRow tinyTable tinyParams (Obs.mk 3 0 false 1973) - 2 ∧
        m2_logitRow tinyTable (updateD tinyParams 0 2) (Obs.mk 3 0 false 1973)
          = m2_logitRow tinyTable tinyParams (Obs.mk 3 0 false 1973) - 2 ∧
        m3_logitRow tinyTable (updateD tinyParams 0 2) (Obs.mk 3 0 false 1973)
          = m3_logitRow tinyTable tinyParams (Obs.mk 3 0 false 1973) - 2 ∧
        m4_logitRow tinyTable (updateD tinyParams 0 2) (Obs.mk 3 0 false 1973)
          = m4_logitRow tinyTable tinyParams (Obs.mk 3 0 false 1973) - 2)) ∧
    (qCodeN tinyTable (Obs.mk 3 0 false 1973) ≠ 1 ∧
      (m1_logitRow tinyTable (updateD tinyParams 1 2) (Obs.mk 3 0 false 1973)
          = m1_logitRow tinyTable tinyParams (Obs.mk 3 0 false 1973) ∧
        m2_logitRow tinyTable (updateD tinyParams 1 2) (Obs.mk 3 0 false 1973)
          = m2_logitRow tinyTable tinyParams (Obs.mk 3 0 false 1973) ∧
        m3_logitRow tinyTable (updateD tinyParams 1 2) (Obs.mk 3 0 false 1973)
          = m3_logitRow tinyTable tinyParams (Obs.mk 3 0 false 1973) ∧
        m4_logitRow tinyTable (updateD tinyParams 1 2) (Obs.mk 3 0 false 1973)
          = m4_logitRow tinyTable tinyParams (Obs.mk 3 0 false 1973))) :=
  ⟨⟨by decide,
    (C5_difficulty_delta tinyTable tinyParams 0 2 (Obs.mk 3 0 false 1973)).1 (by decide)⟩,
   ⟨by decide,
    (C5_difficulty_delta tinyTable tinyParams 1 2 (Obs.mk 3 0 false 1973)).2 (by decide)⟩⟩

/-- C6: every entry of the forecast-mode probability grids of pp32 and
pp42 lies strictly between 0 and 1 for every parameter binding, and at
the degenerate binding (e_new zero, trend zero, all difficulties zero)
every entry equals exactly one half. -/
theorem C6_forecast_grid_bounds :
    (∀ (eNew cye : ℚ) (d : ℕ → ℚ) (y q : ℕ),
      0 < pp32_p eNew cye d y q ∧ pp32_p eNew cye d y q < 1) ∧
    (∀ (eNew : ℕ → ℚ) (cye : ℚ) (d : ℕ → ℚ) (y q : ℕ),
      0 < pp42_p eNew cye d y q ∧ pp42_p eNew cye d y q < 1) ∧
    (∀ y q : ℕ, pp32_p 0 0 (fun _ => 0) y q = 1 / 2) ∧
    (∀ y q : ℕ, pp42_p (fun _ => 0) 0 (fun _ => 0) y q = 1 / 2) := by
  refine ⟨fun eNew cye d y q => ⟨?_, ?_⟩, fun eNew cye d y q => ⟨?_, ?_⟩, ?_, ?_⟩
  · exact invlogit_pos _
  · exact invlogit_lt_one _
  · exact invlogit_pos _
  · exact invlogit_lt_one _
  · intro y q
    have h : pp32_logit 0 0 (fun _ => 0) y q = 0 := by unfold pp32_logit; ring
    unfold pp32_p
    rw [h, Rat.cast_zero, invlogit_zero]
  · intro y q
    have h : pp42_logit (fun _ => 0) 0 (fun _ => 0) y q = 0 := by
      unfold pp42_logit; ring
    unfold pp42_p
    rw [h, Rat.cast_zero, invlogit_zero]

/-- C9 counterexample: conditioning m1 on an observation whose
respondent code -1 lies outside the declared coordinate set (the codes
of a two-respondent axis are 0 and 1) does not fail at all: the array
library silently wraps the index and returns the logit built from the
last respondent efficacy.  No ModelSpecError exists in the notebook. -/
theorem C9_counterexample :
    m1_logit_np [(0 : ℚ)] [(5 : ℚ), 7] (-1) 0 = some 7 ∧ outOfRange 2 (-1) := by
  refine ⟨?_, Or.inl (by decide)⟩
  have h1 : npIndex [(5 : ℚ), 7] (-1) = some 7 := rfl
  have h2 : npIndex [(0 : ℚ)] 0 = some 0 := rfl
  unfold m1_logit_np
  rw [h1, h2]
  norm_num

/-- C9 (amended): conditioning any of the four models on an observation
fails (evaluates to no value, an index error of the array library, not
a ModelSpecError, which does not exist) exactly when a respondent or
question code falls below minus the axis length or at or beyond the
axis length; codes in between that are still outside the declared
coordinate set, namely those in [-n, 0), are silently wrapped instead
of rejected. -/
theorem C9_out_of_range_codes :
    ∀ (d e : List ℚ) (cye : ℚ) (rc qc yc : ℤ),
      (m1_logit_np d e rc qc = none ↔ npFails e.length rc ∨ npFails d.length qc) ∧
      (m2_logit_np d e rc qc = none ↔ npFails e.length rc ∨ npFails d.length qc) ∧
      (m3_logit_np d e cye rc qc yc = none ↔
        npFails e.length rc ∨ npFails d.length qc) ∧
      (m4_logit_np d e cye rc qc yc = none ↔
        npFails e.length rc ∨ npFails d.length qc) := by
  intro d e cye rc qc yc
  have h1 := npIndex_eq_none e rc
  have h2 := npIndex_eq_none d qc
  refine ⟨?_, ?_, ?_, ?_⟩
  · rw [m1_logit_np, pairMatch_eq_none, h1, h2]
  · rw [m2_logit_np, pairMatch_eq_none, h1, h2]
  · rw [m3_logit_np, pairMatch_eq_none, h1, h2]
  · rw [m4_logit_np, pairMatch_eq_none, h1, h2]

/-- C8: encoding any identifier that belongs to the category set and
then decoding the resulting dense code returns the original
identifier, and decoding any code outside the valid range fails with
EncodingError instead of returning a value. -/
theorem C8_encoder_roundtrip :
    (∀ (cats : List ℕ) (x : ℕ), x ∈ cats →
      decode cats (code cats x) = Except.ok x) ∧
    (∀ (cats : List ℕ) (c : ℤ), outOfRange cats.length c →
      decode cats c = Except.error (EncodingError.unknownCode c)) := by
  constructor
  · intro cats x hx
    have hidx : List.indexOf x cats < cats.length := List.indexOf_lt_length.2 hx
    unfold code decode
    rw [if_pos hx]
    rw [dif_pos ⟨Int.ofNat_nonneg _, by simpa [Int.toNat_natCast] using hidx⟩]
    simp only [Int.toNat_natCast]
    exact congrArg Except.ok (List.indexOf_get hidx)
  · intro cats c hc
    unfold decode
    rw [dif_neg]
    rcases hc with hc | hc
    · intro h
      omega
    · intro h
      omega

/-- C2: in m4 the efficacy prior of the respondent with dense code r is
a normal with mean 0 whose scale is exp(polarization_year_zero +
polarization_year_effect * c), where c is the dense year code of the
year of that respondent first observed answer (the id_year_cat coding
used by the model coincides with the q_year_cat year coding), and the
m3 calendar-drift term conservatism_year_effect times the year code of
the observation itself is retained in the m4 logit. -/
theorem C2_m4_polarization :
    ∀ (t : WideTable) (pzero peff : ℚ) (r : ℕ) (h : r < (rCats t).length),
      m4_ePrior t pzero peff r =
        Prior.normalExpScale 0
          (pzero + peff *
            ((code (yCats t) (firstObsYear t ((rCats t).get ⟨r, h⟩)) : ℤ) : ℚ)) ∧
      (∀ (p : Params) (o : Obs),
        m4_logitRow t p o =
          p.e (rCodeN t o) + p.cye * ((code (yCats t) o.year : ℤ) : ℚ)
            - p.d (qCodeN t o)) := by
  intro t pzero peff r h
  refine ⟨?_, fun p o => rfl⟩
  unfold m4_ePrior m4_logSigma idYearCode
  rw [idYearCats_eq_yCats]
  have hd : (idYearList t).getD r 0 = firstObsYear t ((rCats t).get ⟨r, h⟩) := by
    unfold idYearList
    rw [List.getD_eq_getElem _ _ (by simpa using h)]
    rw [List.getElem_map, List.get_eq_getElem]
  rw [hd]

/-- C2 witness: at the fixture table, respondent code 0 is id 3, first
observed in 1973, whose dense year code is 0. -/
theorem C2_witness :
    ∃ h : 0 < (rCats tinyTable).length,
      m4_ePrior tinyTable 1 2 0 =
        Prior.normalExpScale 0
          (1 + 2 *
            ((code (yCats tinyTable)
              (firstObsYear tinyTable ((rCats tinyTable).get ⟨0, h⟩)) : ℤ) : ℚ)) ∧
      (∀ (p : Params) (o : Obs),
        m4_logitRow tinyTable p o =
          p.e (rCodeN tinyTable o)
            + p.cye * ((code (yCats tinyTable) o.year : ℤ) : ℚ)
            - p.d (qCodeN tinyTable o)) :=
  ⟨by decide, C2_m4_polarization tinyTable 1 2 0 (by decide)⟩

/-- C3: in m3 the entry of the logit vector at observation i is the
efficacy at the respondent code of observation i, plus the scalar
conservatism_year_effect (whose prior is normal with mean 0 and scale
1) times the dense year code of the year of observation i itself,
minus the difficulty at the question code of observation i. -/
theorem C3_m3_trend :
    m3_cyePrior = Prior.normal 0 1 ∧
    (∀ (t : WideTable) (p : Params) (i : ℕ) (h : i < (m3_logitVec t p).length),
      ∃ h2 : i < (long_q t).length,
        (m3_logitVec t p).get ⟨i, h⟩ =
          p.e (rCodeN t ((long_q t).get ⟨i, h2⟩))
            + p.cye * ((code (yCats t) ((long_q t).get ⟨i, h2⟩).year : ℤ) : ℚ)
            - p.d (qCodeN t ((long_q t).get ⟨i, h2⟩))) := by
  refine ⟨rfl, fun t p i h => ?_⟩
  refine ⟨by simpa [m3_logitVec] using h, ?_⟩
  simp only [m3_logitVec, List.get_eq_getElem, List.getElem_map]
  rfl

/-- C3 witness: the first row of the observation table of the fixture
is the answer of respondent 3 to question 0 in 1973, and its m3 logit
is the stated formula at that row. -/
theorem C3_witness :
    ∃ h : 0 < (m3_logitVec tinyTable tinyParams).length,
      ∃ h2 : 0 < (long_q tinyTable).length,
        (m3_logitVec tinyTable tinyParams).get ⟨0, h⟩ =
          tinyParams.e (rCodeN tinyTable ((long_q tinyTable).get ⟨0, h2⟩))
            + tinyParams.cye *
              ((code (yCats tinyTable)
                ((long_q tinyTable).get ⟨0, h2⟩).year : ℤ) : ℚ)
            - tinyParams.d (qCodeN tinyTable ((long_q tinyTable).get ⟨0, h2⟩)) :=
  ⟨by decide, C3_m3_trend.2 tinyTable tinyParams 0 (by decide)⟩

/-- C4: in m1 the efficacy prior is an independent normal with mean 0
and scale 4 per respondent, the difficulty prior is a normal with mean
0 and scale 1 per question, the entry of the logit vector at
observation i is efficacy at the respondent code minus difficulty at
the question code with no time term, and the likelihood is independent
Bernoulli draws with those logits conditioned on the observed answers. -/
theorem C4_m1_unpooled :
    m1_ePrior = Prior.normal 0 4 ∧ m1_dPrior = Prior.normal 0 1 ∧
    (∀ (t : WideTable) (p : Params) (i : ℕ) (h : i < (m1_logitVec t p).length),
      ∃ h2 : i < (long_q t).length,
        (m1_logitVec t p).get ⟨i, h⟩ =
          p.e (rCodeN t ((long_q t).get ⟨i, h2⟩))
            - p.d (qCodeN t ((long_q t).get ⟨i, h2⟩))) ∧
    (∀ (t : WideTable) (p : Params),
      m1_likelihood t p =
        Likelihood.bernoulliLogit (m1_logitVec t p)
          ((long_q t).map (fun o => o.answer))) := by
  refine ⟨rfl, rfl, fun t p i h => ?_, fun t p => rfl⟩
  refine ⟨by simpa [m1_logitVec] using h, ?_⟩
  simp only [m1_logitVec, List.get_eq_getElem, List.getElem_map]
  rfl

/-- C4 witness: the m1 logit of the first observation of the fixture
table equals the stated outer difference at that row. -/
theorem C4_witness :
    ∃ h : 0 < (m1_logitVec tinyTable tinyParams).length,
      ∃ h2 : 0 < (long_q tinyTable).length,
        (m1_logitVec tinyTable tinyParams).get ⟨0, h⟩ =
          tinyParams.e (rCodeN tinyTable ((long_q tinyTable).get ⟨0, h2⟩))
            - tinyParams.d (qCodeN tinyTable ((long_q tinyTable).get ⟨0, h2⟩)) :=
  ⟨by decide, C4_m1_unpooled.2.2.1 tinyTable tinyParams 0 (by decide)⟩

/-- C7: the observation table has exactly one row per non-missing cell
of the wide matrix and none for missing cells: a respondent whose row
has exactly one observed cell contributes exactly one observation, and
a respondent whose row is entirely missing contributes zero
observations, the builder itself raising no error in either case. -/
theorem C7_builder_counts :
    ∀ (t : WideTable) (w : WideRow), w ∈ t.rows →
      (t.rows.map (fun x => x.id)).Nodup →
      w.answers.length = t.nq →
      ((long_q t).countP (fun o => o.id == w.id)
          = w.answers.countP Option.isSome ∧
        (w.answers.countP Option.isSome = 1 →
          (long_q t).countP (fun o => o.id == w.id) = 1) ∧
        ((∀ a ∈ w.answers, a = none) →
          (long_q t).countP (fun o => o.id == w.id) = 0)) := by
  intro t w hw hnd hlen
  have hmain : (long_q t).countP (fun o => o.id == w.id)
      = w.answers.countP Option.isSome := by
    rw [long_q_countP, melt_countP t w hw hnd, ← hlen, sum_range_presence]
  refine ⟨hmain, fun h1 => hmain.trans h1, fun hall => ?_⟩
  rw [hmain, List.countP_eq_zero]
  intro a ha
  rw [hall a ha]
  simp

/-- C7 witness: in the fixture table respondent 5 has exactly one
observed cell and contributes exactly one observation, and respondent
9 has both cells missing and contributes zero observations. -/
theorem C7_witness :
    (WideRow.mk 5 1975 [some true, none] ∈ tinyTable.rows ∧
      (tinyTable.rows.map (fun x => x.id)).Nodup ∧
      ([some true, none] : List (Option Bool)).length = tinyTable.nq ∧
      (long_q tinyTable).countP (fun o => o.id == 5) = 1) ∧
    (WideRow.mk 9 1973 [none, none] ∈ tinyTable.rows ∧
      (∀ a ∈ ([none, none] : List (Option Bool)), a = none) ∧
      (long_q tinyTable).countP (fun o => o.id == 9) = 0) :=
  ⟨⟨by decide, by decide, by decide,
    (C7_builder_counts tinyTable (WideRow.mk 5 1975 [some true, none])
      (by decide) (by decide) (by decide)).2.1 (by decide)⟩,
   ⟨by decide, by decide,
    (C7_builder_counts tinyTable (WideRow.mk 9 1973 [none, none])
      (by decide) (by decide) (by decide)).2.2 (by decide)⟩⟩

/-- C8 witness: respondent id 5 of the fixture table round-trips
through its dense code, and decoding the out-of-range code -1 (and the
too-large code 7) fails with EncodingError. -/
theorem C8_witness :
    ((5 : ℕ) ∈ rCats tinyTable ∧
      decode (rCats tinyTable) (code (rCats tinyTable) 5) = Except.ok 5) ∧
    (outOfRange (rCats tinyTable).length (-1) ∧
      decode (rCats tinyTable) (-1)
        = Except.error (EncodingError.unknownCode (-1))) ∧
    (outOfRange (rCats tinyTable).length 7 ∧
      decode (rCats tinyTable) 7
        = Except.error (EncodingError.unknownCode 7)) :=
  ⟨⟨by decide, C8_encoder_roundtrip.1 (rCats tinyTable) 5 (by decide)⟩,
   ⟨Or.inl (by decide),
    C8_encoder_roundtrip.2 (rCats tinyTable) (-1) (Or.inl (by decide))⟩,
   ⟨Or.inr (by decide),
    C8_encoder_roundtrip.2 (rCats tinyTable) 7 (Or.inr (by decide))⟩⟩

/-- C10: in resample mode, a parameter present in the posterior sample
set is bound to its posterior value, never redrawn from the declared
prior; hence two simulation model blocks that differ only in their
declared prior scales produce identical response_sum outputs from the
same posterior draw and the same seeded random streams.  The cited
blocks declare e with sigma 4 (pp2) and sigma 1 (pp4). -/
theorem C10_resample_ignores_declared_priors :
    pp2_eSigmaDecl = 4 ∧ pp4_eSigmaDecl = 1 ∧
    (∀ (v : List ℚ) (sigma : ℚ) (z : ℕ → ℚ) (i : ℕ),
      bindVec (some v) sigma z i = v.getD i 0) ∧
    (∀ (c sigma z : ℚ), bindScalar (some c) sigma z = c) ∧
    (∀ (trendOn : Bool) (yearCodes : List ℤ) (nR nQ : ℕ)
      (decl₁ decl₂ : DeclSigmas) (dpost epost : List ℚ) (cpost : ℚ)
      (zd ze : ℕ → ℚ) (zc : ℚ) (g : ℕ → ℕ → ℚ),
      simResponseSum trendOn yearCodes nR nQ decl₁
          (PosteriorDraw.mk (some dpost) (some epost) (some cpost)) zd ze zc g
        = simResponseSum trendOn yearCodes nR nQ decl₂
          (PosteriorDraw.mk (some dpost) (some epost) (some cpost)) zd ze zc g) :=
  ⟨rfl, rfl, fun _ _ _ _ => rfl, fun _ _ _ => rfl,
   fun _ _ _ _ _ _ _ _ _ _ _ _ _ => rfl⟩

end Overton
